import Mathlib

/-!
Verification development for the lp_bot repository (an Aerodrome / Uniswap-V3-style
concentrated-liquidity rebalancing bot written in JavaScript).

Shallow embedding conventions used throughout this file:

* JavaScript numbers that hold tick indices, decimals and wei amounts are modelled
  as integers (Int) or naturals (Nat); fractional JS arithmetic on such quantities
  (Math.floor of quotients, percentage computations) is modelled over the rationals,
  which is exact for every computation the settled claims touch (in every relevant
  computation the float values are exactly representable or the deciding quantities
  are far above double rounding error).
* The square-root price math of calculateOptimalRatio is modelled over the reals,
  the idealisation the specification itself sanctions for ratio decisions.
  The JS division by zero that yields Infinity and NaN ratios is modelled by an
  Option result: none stands for the non-finite outcome.
* Fallible chain and HTTP interactions are oracles passed in as Except values;
  try/catch control flow is translated structurally.
-/

namespace LpBot

/-! ## Chain tick bounds

The chain-defined Uniswap-V3 tick bounds referenced by the spec. The repository
itself never defines or checks them; they appear here only to state the bounds
clause of the range-alignment claim. -/

def MIN_TICK : ℤ := -887272

def MAX_TICK : ℤ := 887272

/-! ## CL range math (src/monitor.js, PositionMonitor.calculateNewRange)

JS source:

  const rangeWidth = tickSpacing * Math.floor(30 / tickSpacing) * rangeMultiplier;
  const tickLower = Math.floor((currentTick - rangeWidth) / tickSpacing) * tickSpacing;
  const tickUpper = Math.ceil((currentTick + rangeWidth) / tickSpacing) * tickSpacing;
  return { tickLower, tickUpper };

The two optional arguments existingTickLower and existingTickUpper of the JS
function are ignored by its body, so they are omitted here. rangeMultiplier is a
JS float (2.6 by default); it is modelled as a rational. In the concrete scenarios
settled below the width expression is exactly 0 in float arithmetic as well, so the
rational model is exact there. -/

def calculateNewRange (currentTick tickSpacing : ℤ) (rangeMultiplier : ℚ) : ℤ × ℤ :=
  let rangeWidth : ℚ :=
    (tickSpacing : ℚ) * ((⌊(30 : ℚ) / (tickSpacing : ℚ)⌋ : ℤ) : ℚ) * rangeMultiplier
  let tickLower : ℤ := ⌊((currentTick : ℚ) - rangeWidth) / (tickSpacing : ℚ)⌋ * tickSpacing
  let tickUpper : ℤ := ⌈((currentTick : ℚ) + rangeWidth) / (tickSpacing : ℚ)⌉ * tickSpacing
  (tickLower, tickUpper)

/-! ## Position classification (src/monitor.js, PositionMonitor.checkPositionStatus)

JS source classifies with isBelowRange = currentTick < tickLower,
isAboveRange = currentTick > tickUpper, isInRange = neither, and computes
percentOutOfRange = distance / range * 100 on the out-of-range side (0 otherwise).
The JS function formats the percentage with toFixed(2) for display; the raw
rational value is modelled here, which is what the classification logic uses. -/

structure PositionStatus where
  isInRange : Bool
  isBelowRange : Bool
  isAboveRange : Bool
  percentOutOfRange : ℚ
  deriving Repr, DecidableEq

def checkPositionStatus (tickLower tickUpper currentTick : ℤ) : PositionStatus :=
  let isBelowRange : Bool := decide (currentTick < tickLower)
  let isAboveRange : Bool := decide (tickUpper < currentTick)
  let isInRange : Bool := !isBelowRange && !isAboveRange
  let percentOutOfRange : ℚ :=
    if currentTick < tickLower then
      ((tickLower : ℚ) - (currentTick : ℚ)) / ((tickUpper : ℚ) - (tickLower : ℚ)) * 100
    else if tickUpper < currentTick then
      ((currentTick : ℚ) - (tickUpper : ℚ)) / ((tickUpper : ℚ) - (tickLower : ℚ)) * 100
    else 0
  ⟨isInRange, isBelowRange, isAboveRange, percentOutOfRange⟩

/-! ## EIP-1559 fee policy (src/web3.js, Web3Manager.getGasPrice, non-legacy path)

JS source:

  const baseFee = block.baseFeePerGas;
  const priorityFee = ethers.parseUnits(String(config.priorityFeeGwei), gwei);
  let maxPriorityFeePerGas = priorityFee;
  let maxFeePerGas = baseFee + maxPriorityFeePerGas;
  const maxGwei = ethers.parseUnits(String(config.maxGasPrice), gwei);
  if (maxFeePerGas > maxGwei) maxFeePerGas = maxGwei;
  if (maxPriorityFeePerGas > maxFeePerGas) maxPriorityFeePerGas = maxFeePerGas;
  return { maxFeePerGas, maxPriorityFeePerGas };

All quantities are wei amounts (BigInt in JS, Nat here). The configured
MAX_GAS_PRICE is an integer number of gwei, converted by parseUnits to
maxGasPriceGwei * 10 ^ 9 wei; the priority fee is passed here already in wei. -/

def getGasPrice (baseFee priorityFeeWei maxGasPriceGwei : ℕ) : ℕ × ℕ :=
  let maxPriorityFeePerGas := priorityFeeWei
  let maxFeePerGas := baseFee + maxPriorityFeePerGas
  let maxGwei := maxGasPriceGwei * 10 ^ 9
  let maxFeePerGas := if maxGwei < maxFeePerGas then maxGwei else maxFeePerGas
  let maxPriorityFeePerGas :=
    if maxFeePerGas < maxPriorityFeePerGas then maxFeePerGas else maxPriorityFeePerGas
  (maxFeePerGas, maxPriorityFeePerGas)

/-! ## Orchestrator single-flight model (src/index.js runCheckCycle / checkAndRebalance,
src/rebalancer.js Rebalancer.rebalance)

The relevant state is the isCheckInProgress latch of AerodromeAutoBalancer and the
pendingRebalance field of Rebalancer (the RebalanceDescriptor, here reduced to the
tokenId it was created for). Rebalancer.rebalance assigns
this.pendingRebalance = new descriptor unconditionally on entry, clears it on
success, and on failure rethrows without clearing it; checkAndRebalance catches the
rethrown error, logs it and moves to the next candidate. runCheckCycle skips a
cycle entirely when the latch is set. The trace of CycleEvent values records what a
run did: a skipped overlapping trigger, each descriptor creation together with
whether a descriptor already existed at that moment, and each descriptor release. -/

inductive CycleEvent where
  | skipped : CycleEvent
  | descriptorCreated : ℕ → Bool → CycleEvent
  | descriptorCleared : ℕ → CycleEvent
  deriving Repr, DecidableEq

structure BotState where
  isCheckInProgress : Bool
  pendingRebalance : Option ℕ
  deriving Repr, DecidableEq

def rebalanceRun (st : BotState) (tokenId : ℕ) (succeeds : Bool) : BotState × List CycleEvent :=
  let created := CycleEvent.descriptorCreated tokenId st.pendingRebalance.isSome
  let st1 : BotState := { st with pendingRebalance := some tokenId }
  if succeeds then
    ({ st1 with pendingRebalance := none }, [created, CycleEvent.descriptorCleared tokenId])
  else
    (st1, [created])

def checkAndRebalance : BotState → List (ℕ × Bool) → BotState × List CycleEvent
  | st, [] => (st, [])
  | st, (tokenId, succeeds) :: rest =>
    let r1 := rebalanceRun st tokenId succeeds
    let r2 := checkAndRebalance r1.1 rest
    (r2.1, r1.2 ++ r2.2)

def runCheckCycle (st : BotState) (candidates : List (ℕ × Bool)) : BotState × List CycleEvent :=
  if st.isCheckInProgress then (st, [CycleEvent.skipped])
  else
    let st1 : BotState := { st with isCheckInProgress := true }
    let r := checkAndRebalance st1 candidates
    ({ r.1 with isCheckInProgress := false }, r.2)

/-! ## Swap executors (src/rebalancer.js Rebalancer.swapTokens of both variants)

A swap attempt is the whole quote, build, approve and send pipeline; its outcome is
an oracle (Except value) indexed by attempt number, so a second attempt is a fresh
quote by construction. The receipt is reduced to an opaque number.

Kyber aggregator variant: the attempt body runs inside a retry wrapper that
re-quotes and retries once when the error message matches the retryable route
error patterns Call failed, Return amount is not enough, or
TransferHelper TRANSFER_FROM_FAILED; everything sits inside an outer try/catch
that turns ANY error into a null return, so the function never raises. The
per-send nonce-expired retry lives inside an attempt and is modelled separately
below for the nonce claim.

Direct Universal Router variant: there is no route-level retry at all; the only
retry is the nonce-expired one around the send, and the outer catch again turns
any error into a null return. -/

inductive SwapError where
  | callFailed : SwapError
  | insufficientReturn : SwapError
  | transferFromFailed : SwapError
  | nonceExpired : SwapError
  | untrustedRouter : SwapError
  | other : SwapError
  deriving Repr, DecidableEq

def isRetryableRouteError : SwapError → Bool
  | SwapError.callFailed => true
  | SwapError.insufficientReturn => true
  | SwapError.transferFromFailed => true
  | _ => false

def swapTokensKyber (amountIn : ℕ) (attempt1 attempt2 : Except SwapError ℕ) :
    Except SwapError (Option ℕ) :=
  if amountIn = 0 then Except.ok none
  else
    match attempt1 with
    | Except.ok receipt => Except.ok (some receipt)
    | Except.error e =>
      if isRetryableRouteError e then
        match attempt2 with
        | Except.ok receipt => Except.ok (some receipt)
        | Except.error _ => Except.ok none
      else Except.ok none

def swapTokensDirect (amountIn : ℕ) (send1 send2 : Except SwapError ℕ) :
    Except SwapError (Option ℕ) :=
  if amountIn = 0 then Except.ok none
  else
    match send1 with
    | Except.ok receipt => Except.ok (some receipt)
    | Except.error e =>
      if e = SwapError.nonceExpired then
        match send2 with
        | Except.ok receipt => Except.ok (some receipt)
        | Except.error _ => Except.ok none
      else Except.ok none

/-! ## Nonce-managed signer and the nonce-expired retry
(src/web3.js Web3Manager.initialize wraps the wallet in an ethers NonceManager;
src/rebalancer.js swapTokens lines around the sendTransaction call)

Modelled from the spec: the NonceManager internals are the ethers library, not
repository code. Per section 4.3 the signer owns a counter assigning
monotonically increasing nonces and reset makes it re-derive the next nonce from
the chain view. The model keeps the first fetched chain nonce as cached base plus
a delta incremented per assignment; reset drops both so the next assignment takes
the chain view passed at that moment.

The submission flow mirrors the swap submit code exactly: one send, and if it
fails with the nonce-expired kind, one reset followed by one more send; any other
error propagates to the caller of the submit step with no further send. The
rebalance state machine wrote stage = swapping once before this flow began and
the retry path never touches the stage, which the stageWrites field records. -/

structure NonceState where
  cached : Option ℕ
  delta : ℕ
  deriving Repr, DecidableEq

def assignNonce (st : NonceState) (chainNonce : ℕ) : ℕ × NonceState :=
  let base := st.cached.getD chainNonce
  (base + st.delta, { cached := some base, delta := st.delta + 1 })

def resetNonce (_st : NonceState) : NonceState :=
  { cached := none, delta := 0 }

structure SubmitTrace where
  result : Except SwapError ℕ
  signer : NonceState
  nonces : List ℕ
  stageWrites : ℕ
  deriving Repr

def submitSwapWithNonceRetry (signer : NonceState) (chain1 chain2 : ℕ)
    (outcome1 outcome2 : Except SwapError ℕ) : SubmitTrace :=
  let stageWrites := 1
  let a1 := assignNonce signer chain1
  match outcome1 with
  | Except.ok receipt => ⟨Except.ok receipt, a1.2, [a1.1], stageWrites⟩
  | Except.error e =>
    if e = SwapError.nonceExpired then
      let s2 := resetNonce a1.2
      let a2 := assignNonce s2 chain2
      ⟨outcome2, a2.2, [a1.1, a2.1], stageWrites⟩
    else ⟨Except.error e, a1.2, [a1.1], stageWrites⟩

/-! ## Monitor cycle with failing tick reads
(src/monitor.js PositionMonitor.checkAllPositions)

Per position the loop resolves a pool address (the position field or the
findPool locator; if both are missing the position is skipped with a warning),
then initialises currentTick to 0, tries getCurrentPrice (the slot0 read) and on
error tries the pool tick() call, leaving 0 when both fail, and finally pushes
the classification produced by checkPositionStatus for that tick. Chain reads
are oracles; the error payload is an opaque number (the message). -/

structure PositionEntry where
  tokenId : ℕ
  tickLower : ℤ
  tickUpper : ℤ
  liquidity : ℕ
  poolAddress : Option ℕ
  deriving Repr, DecidableEq

structure PoolOracle where
  slot0Read : Except ℕ ℤ
  tickRead : Except ℕ ℤ
  deriving Repr

structure CheckedPosition where
  tokenId : ℕ
  poolAddress : ℕ
  currentTick : ℤ
  status : PositionStatus
  deriving Repr, DecidableEq

def currentTickOf (slot0Read tickRead : Except ℕ ℤ) : ℤ :=
  match slot0Read with
  | Except.ok t => t
  | Except.error _ =>
    match tickRead with
    | Except.ok t => t
    | Except.error _ => 0

def checkOnePosition (pos : PositionEntry) (oracle : PoolOracle) : Option CheckedPosition :=
  match pos.poolAddress with
  | none => none
  | some poolAddress =>
    let currentTick := currentTickOf oracle.slot0Read oracle.tickRead
    some ⟨pos.tokenId, poolAddress, currentTick,
      checkPositionStatus pos.tickLower pos.tickUpper currentTick⟩

def checkAllPositions (input : List (PositionEntry × PoolOracle)) : List CheckedPosition :=
  input.filterMap (fun pr => checkOnePosition pr.1 pr.2)

/-! ## Ratio math (src/rebalancer.js Rebalancer.calculateOptimalRatio, identical in
both rebalancer variants)

JS source of the pure math, after the chain reads of slot0 and the decimals:

  const sqrtPriceCurrent = Math.pow(1.0001, currentTick / 2);
  const sqrtPriceLower = Math.sqrt(1.0001 ** tickLower);
  const sqrtPriceUpper = Math.sqrt(1.0001 ** tickUpper);
  if (currentTick < tickLower) return { token0Ratio: 1, token1Ratio: 0, ... };
  else if (currentTick > tickUpper) return { token0Ratio: 0, token1Ratio: 1, ... };
  else {
    const amount0PerAmount1Raw =
      (1/sqrtPriceCurrent - 1/sqrtPriceUpper) / (sqrtPriceCurrent - sqrtPriceLower);
    const amount0PerAmount1Human = amount0PerAmount1Raw * 10 ** (decimals1 - decimals0);
    const priceAdjusted = 1.0001 ** currentTick * 10 ** (decimals0 - decimals1);
    const value0 = amount0PerAmount1Human * priceAdjusted;
    const totalValue = value0 + 1;
    return { token0Ratio: value0 / totalValue, token1Ratio: 1 / totalValue, ... };
  }

The model is over the reals, where sqrt(1.0001 pow t) and 1.0001 pow (t / 2) agree
exactly, so a single sqrtPriceOfTick serves for all three values. In the in-range
branch with currentTick = tickLower the JS divisor sqrtPriceCurrent minus
sqrtPriceLower is zero and the float division produces Infinity and then NaN
ratios; the model returns none for exactly that input (the equivalence between
the tick equality and the vanishing of the divisor is proved below). -/

noncomputable def sqrtPriceOfTick (t : ℤ) : ℝ :=
  (1.0001 : ℝ) ^ ((t : ℝ) / 2)

structure RatioResult where
  token0Ratio : ℝ
  token1Ratio : ℝ
  inRange : Bool
  belowRange : Bool

noncomputable def getPriceFromTickAdjusted (tick decimals0 decimals1 : ℤ) : ℝ :=
  (1.0001 : ℝ) ^ (tick : ℝ) * (10 : ℝ) ^ ((decimals0 : ℝ) - (decimals1 : ℝ))

noncomputable def calculateOptimalRatio
    (currentTick tickLower tickUpper decimals0 decimals1 : ℤ) : Option RatioResult :=
  if currentTick < tickLower then
    some ⟨1, 0, false, true⟩
  else if tickUpper < currentTick then
    some ⟨0, 1, false, false⟩
  else if currentTick = tickLower then
    none
  else
    let sqrtPriceCurrent := sqrtPriceOfTick currentTick
    let sqrtPriceLower := sqrtPriceOfTick tickLower
    let sqrtPriceUpper := sqrtPriceOfTick tickUpper
    let amount0PerAmount1Raw :=
      (1 / sqrtPriceCurrent - 1 / sqrtPriceUpper) / (sqrtPriceCurrent - sqrtPriceLower)
    let amount0PerAmount1Human :=
      amount0PerAmount1Raw * (10 : ℝ) ^ ((decimals1 : ℝ) - (decimals0 : ℝ))
    let priceAdjusted := getPriceFromTickAdjusted currentTick decimals0 decimals1
    let value0 := amount0PerAmount1Human * priceAdjusted
    let totalValue := value0 + 1
    some ⟨value0 / totalValue, 1 / totalValue, true, false⟩

/-! ## Theorems about the range math -/

/-- Helper: the floor in the width expression is nonnegative for a positive spacing. -/
theorem floor_thirty_div_nonneg (tickSpacing : ℤ) (hs : 0 < tickSpacing) :
    0 ≤ ⌊(30 : ℚ) / (tickSpacing : ℚ)⌋ := by
  have hsQ : (0 : ℚ) < (tickSpacing : ℚ) := by exact_mod_cast hs
  refine Int.le_floor.mpr ?_
  push_cast
  positivity

/-- C1 (amended). Range alignment, weakened to what calculateNewRange guarantees:
for every positive tickSpacing and nonnegative rangeMultiplier the returned
tickLower and tickUpper are multiples of tickSpacing, satisfy
tickLower less-or-equal currentTick less-or-equal tickUpper, and tickLower
less-or-equal tickUpper. The original stronger clauses fail: the range can
collapse to zero width with no InvalidRange failure, and the result is not
clamped to the MIN_TICK / MAX_TICK bounds (see the counterexample theorem). -/
theorem calculateNewRange_alignment
    (currentTick tickSpacing : ℤ) (rangeMultiplier : ℚ)
    (hs : 0 < tickSpacing) (hm : 0 ≤ rangeMultiplier) :
    tickSpacing ∣ (calculateNewRange currentTick tickSpacing rangeMultiplier).1 ∧
    tickSpacing ∣ (calculateNewRange currentTick tickSpacing rangeMultiplier).2 ∧
    (calculateNewRange currentTick tickSpacing rangeMultiplier).1 ≤ currentTick ∧
    currentTick ≤ (calculateNewRange currentTick tickSpacing rangeMultiplier).2 ∧
    (calculateNewRange currentTick tickSpacing rangeMultiplier).1 ≤
      (calculateNewRange currentTick tickSpacing rangeMultiplier).2 := by
  have hsQ : (0 : ℚ) < (tickSpacing : ℚ) := by exact_mod_cast hs
  have hsne : (tickSpacing : ℚ) ≠ 0 := ne_of_gt hsQ
  simp only [calculateNewRange]
  set w : ℚ :=
    (tickSpacing : ℚ) * ((⌊(30 : ℚ) / (tickSpacing : ℚ)⌋ : ℤ) : ℚ) * rangeMultiplier with hw
  have hwpos : 0 ≤ w := by
    refine mul_nonneg (mul_nonneg hsQ.le ?_) hm
    exact_mod_cast floor_thirty_div_nonneg tickSpacing hs
  have hlo : (⌊((currentTick : ℚ) - w) / (tickSpacing : ℚ)⌋ * tickSpacing : ℤ) ≤ currentTick := by
    have h1 : ((⌊((currentTick : ℚ) - w) / (tickSpacing : ℚ)⌋ : ℤ) : ℚ) ≤
        ((currentTick : ℚ) - w) / (tickSpacing : ℚ) := Int.floor_le _
    have h2 : ((⌊((currentTick : ℚ) - w) / (tickSpacing : ℚ)⌋ : ℤ) : ℚ) * (tickSpacing : ℚ) ≤
        ((currentTick : ℚ) - w) / (tickSpacing : ℚ) * (tickSpacing : ℚ) :=
      mul_le_mul_of_nonneg_right h1 hsQ.le
    rw [div_mul_cancel₀ _ hsne] at h2
    have h3 : ((⌊((currentTick : ℚ) - w) / (tickSpacing : ℚ)⌋ : ℤ) : ℚ) * (tickSpacing : ℚ) ≤
        (currentTick : ℚ) := le_trans h2 (by linarith)
    exact_mod_cast h3
  have hhi : currentTick ≤ (⌈((currentTick : ℚ) + w) / (tickSpacing : ℚ)⌉ * tickSpacing : ℤ) := by
    have h1 : ((currentTick : ℚ) + w) / (tickSpacing : ℚ) ≤
        ((⌈((currentTick : ℚ) + w) / (tickSpacing : ℚ)⌉ : ℤ) : ℚ) := Int.le_ceil _
    have h2 : ((currentTick : ℚ) + w) / (tickSpacing : ℚ) * (tickSpacing : ℚ) ≤
        ((⌈((currentTick : ℚ) + w) / (tickSpacing : ℚ)⌉ : ℤ) : ℚ) * (tickSpacing : ℚ) :=
      mul_le_mul_of_nonneg_right h1 hsQ.le
    rw [div_mul_cancel₀ _ hsne] at h2
    have h3 : (currentTick : ℚ) ≤
        ((⌈((currentTick : ℚ) + w) / (tickSpacing : ℚ)⌉ : ℤ) : ℚ) * (tickSpacing : ℚ) :=
      le_trans (by linarith) h2
    exact_mod_cast h3
  refine ⟨dvd_mul_left _ _, dvd_mul_left _ _, hlo, hhi, le_trans hlo hhi⟩

/-- C1 (counterexample to the claim as stated). At currentTick = -196320,
tickSpacing = 60, rangeMultiplier = 2.6 the width term collapses to 0 and the
returned range has tickLower = tickUpper, violating tickLower < tickUpper and
producing no InvalidRange failure; and at currentTick = 887271, tickSpacing = 1,
rangeMultiplier = 1 the returned tickUpper exceeds MAX_TICK, violating the
bounds clause. -/
theorem calculateNewRange_claim_false :
    calculateNewRange (-196320) 60 (13 / 5) = (-196320, -196320) ∧
    ¬ (calculateNewRange (-196320) 60 (13 / 5)).1 <
        (calculateNewRange (-196320) 60 (13 / 5)).2 ∧
    MAX_TICK < (calculateNewRange 887271 1 1).2 := by
  have hc1 : ⌈(-3272 : ℚ)⌉ = (-3272 : ℤ) := by norm_num [Int.ceil_eq_iff]
  have hc2 : ⌈(887301 : ℚ)⌉ = (887301 : ℤ) := by norm_num [Int.ceil_eq_iff]
  refine ⟨?_, ?_, ?_⟩ <;> norm_num [calculateNewRange, Prod.ext_iff, MAX_TICK, hc1, hc2]

/-- C1 (witness). The amended alignment theorem applied at the concrete scenario
input currentTick = -196320, tickSpacing = 60, rangeMultiplier = 2.6. -/
theorem calculateNewRange_alignment_witness :
    (60 : ℤ) ∣ (calculateNewRange (-196320) 60 (13 / 5)).1 ∧
    (calculateNewRange (-196320) 60 (13 / 5)).1 ≤ -196320 := by
  have h := calculateNewRange_alignment (-196320) 60 (13 / 5) (by decide) (by norm_num)
  exact ⟨h.1, h.2.2.1⟩

/-- C2 (counterexample to the claim as stated). calculateNewRange(-196320, 60, 2.6)
does not return the range (-196440, -196200) stated by the spec scenario. -/
theorem calculateNewRange_scenarioA_claim_false :
    calculateNewRange (-196320) 60 (13 / 5) ≠ ((-196440 : ℤ), (-196200 : ℤ)) := by
  have hc1 : ⌈(-3272 : ℚ)⌉ = (-3272 : ℤ) := by norm_num [Int.ceil_eq_iff]
  norm_num [calculateNewRange, Prod.ext_iff, hc1]

/-- C2 (amended). With tickSpacing = 60 the width term
tickSpacing * floor(30 / tickSpacing) * rangeMultiplier is 0, so
calculateNewRange(-196320, 60, 2.6) returns the collapsed range
tickLower = tickUpper = -196320. -/
theorem calculateNewRange_scenarioA_actual :
    calculateNewRange (-196320) 60 (13 / 5) = (-196320, -196320) := by
  have hc1 : ⌈(-3272 : ℚ)⌉ = (-3272 : ℤ) := by norm_num [Int.ceil_eq_iff]
  norm_num [calculateNewRange, Prod.ext_iff, hc1]

/-! ## Theorems about position classification -/

/-- C4 (amended). The monitor classifies a position as in range exactly when
tickLower less-or-equal currentTick less-or-equal tickUpper: the interval is
closed, so a position whose current tick equals tickUpper is classified in
range, not out of range as the claim states (see the counterexample theorem).
The percentage out of range is the absolute distance to the crossed boundary
divided by the range width times 100 on the appropriate side, and 0 in range. -/
theorem checkPositionStatus_classification (tickLower tickUpper currentTick : ℤ)
    (hrange : tickLower ≤ tickUpper) :
    ((checkPositionStatus tickLower tickUpper currentTick).isInRange = true ↔
      tickLower ≤ currentTick ∧ currentTick ≤ tickUpper) ∧
    (currentTick < tickLower →
      (checkPositionStatus tickLower tickUpper currentTick).percentOutOfRange =
        |(currentTick : ℚ) - (tickLower : ℚ)| /
          ((tickUpper : ℚ) - (tickLower : ℚ)) * 100) ∧
    (tickUpper < currentTick →
      (checkPositionStatus tickLower tickUpper currentTick).percentOutOfRange =
        |(currentTick : ℚ) - (tickUpper : ℚ)| /
          ((tickUpper : ℚ) - (tickLower : ℚ)) * 100) ∧
    (tickLower ≤ currentTick → currentTick ≤ tickUpper →
      (checkPositionStatus tickLower tickUpper currentTick).percentOutOfRange = 0) := by
  refine ⟨?_, ?_, ?_, ?_⟩
  · simp only [checkPositionStatus, Bool.and_eq_true, Bool.not_eq_true', decide_eq_false_iff_not,
      not_lt]
  · intro h
    have habs : |(currentTick : ℚ) - (tickLower : ℚ)| = (tickLower : ℚ) - (currentTick : ℚ) := by
      rw [abs_sub_comm]
      refine abs_of_nonneg ?_
      have : (currentTick : ℚ) ≤ (tickLower : ℚ) := by exact_mod_cast h.le
      linarith
    simp only [checkPositionStatus, if_pos h, habs]
  · intro h
    have hnb : ¬ currentTick < tickLower := by omega
    have habs : |(currentTick : ℚ) - (tickUpper : ℚ)| = (currentTick : ℚ) - (tickUpper : ℚ) := by
      refine abs_of_nonneg ?_
      have : (tickUpper : ℚ) ≤ (currentTick : ℚ) := by exact_mod_cast h.le
      linarith
    simp only [checkPositionStatus, if_neg hnb, if_pos h, habs]
  · intro h1 h2
    have hnb : ¬ currentTick < tickLower := by omega
    have hna : ¬ tickUpper < currentTick := by omega
    simp only [checkPositionStatus, if_neg hnb, if_neg hna]

/-- C4 (counterexample to the claim as stated). A position whose current tick
equals tickUpper is classified in range by the code, while the half-open
interval of the claim excludes it. -/
theorem checkPositionStatus_claim_false :
    (checkPositionStatus 0 60 60).isInRange = true ∧ ¬ ((0 : ℤ) ≤ 60 ∧ (60 : ℤ) < 60) := by
  decide

/-- C4 (witness). The amended classification theorem applied at tickLower = 0,
tickUpper = 60, currentTick = -30: the position is 50 percent below range. -/
theorem checkPositionStatus_classification_witness :
    (checkPositionStatus 0 60 (-30)).percentOutOfRange =
      |((-30 : ℤ) : ℚ) - ((0 : ℤ) : ℚ)| / (((60 : ℤ) : ℚ) - ((0 : ℤ) : ℚ)) * 100 ∧
    (checkPositionStatus 0 60 30).isInRange = true := by
  constructor
  · exact (checkPositionStatus_classification 0 60 (-30) (by decide)).2.1 (by decide)
  · exact ((checkPositionStatus_classification 0 60 30 (by decide)).1).mpr
      (by constructor <;> decide)

/-! ## Theorems about the fee policy -/

/-- C8 (confirmed). For every base fee and MAX_GAS_PRICE in the claimed ranges
(the proof does not even need the bounds), the EIP-1559 output satisfies
maxPriorityFeePerGas less-or-equal maxFeePerGas, and whenever the configured cap
forces the capped maxFee below the configured priority fee the priority fee is
clamped down to equal maxFee. -/
theorem getGasPrice_valid (baseFee priorityFeeWei maxGasPriceGwei : ℕ)
    (hbound0 : baseFee ≤ 10 ^ 18) (hbound1 : maxGasPriceGwei ≤ 10 ^ 18) :
    (getGasPrice baseFee priorityFeeWei maxGasPriceGwei).2 ≤
      (getGasPrice baseFee priorityFeeWei maxGasPriceGwei).1 ∧
    (maxGasPriceGwei * 10 ^ 9 < priorityFeeWei →
      (getGasPrice baseFee priorityFeeWei maxGasPriceGwei).2 =
        (getGasPrice baseFee priorityFeeWei maxGasPriceGwei).1) := by
  simp only [getGasPrice]
  split_ifs <;> omega

/-- C8 (witness). The fee-policy theorem applied at a base fee of 10 ^ 18 wei, a
priority fee of 5 wei and a MAX_GAS_PRICE of 0 gwei: the cap forces both fields
to 0 and they are equal. -/
theorem getGasPrice_valid_witness :
    (getGasPrice (10 ^ 18) 5 0).2 = (getGasPrice (10 ^ 18) 5 0).1 :=
  (getGasPrice_valid (10 ^ 18) 5 0 (by norm_num) (by norm_num)).2 (by norm_num)

/-! ## Theorems about the ratio math -/

/-- Helper: square-root prices are positive. -/
theorem sqrtPriceOfTick_pos (t : ℤ) : 0 < sqrtPriceOfTick t :=
  Real.rpow_pos_of_pos (by norm_num) _

/-- Helper: square-root prices are strictly monotone in the tick. -/
theorem sqrtPriceOfTick_lt {s t : ℤ} (h : s < t) : sqrtPriceOfTick s < sqrtPriceOfTick t := by
  refine (Real.rpow_lt_rpow_left_iff (by norm_num : (1 : ℝ) < 1.0001)).mpr ?_
  have : (s : ℝ) < (t : ℝ) := by exact_mod_cast h
  linarith

/-- Helper: square-root prices are monotone in the tick. -/
theorem sqrtPriceOfTick_le {s t : ℤ} (h : s ≤ t) : sqrtPriceOfTick s ≤ sqrtPriceOfTick t := by
  refine (Real.rpow_le_rpow_left_iff (by norm_num : (1 : ℝ) < 1.0001)).mpr ?_
  have : (s : ℝ) ≤ (t : ℝ) := by exact_mod_cast h
  linarith

/-- Helper: equal square-root prices force equal ticks. -/
theorem sqrtPriceOfTick_inj {s t : ℤ} (h : sqrtPriceOfTick s = sqrtPriceOfTick t) : s = t := by
  rcases lt_trichotomy s t with hlt | heq | hgt
  · exact absurd h (ne_of_lt (sqrtPriceOfTick_lt hlt))
  · exact heq
  · exact absurd h.symm (ne_of_lt (sqrtPriceOfTick_lt hgt))

/-- Helper: the decimal-adjusted price is positive. -/
theorem getPriceFromTickAdjusted_pos (tick decimals0 decimals1 : ℤ) :
    0 < getPriceFromTickAdjusted tick decimals0 decimals1 :=
  mul_pos (Real.rpow_pos_of_pos (by norm_num) _) (Real.rpow_pos_of_pos (by norm_num) _)

/-- C10 (confirmed). In the in-range branch the divisor
sqrtPriceCurrent - sqrtPriceLower of the raw amount-ratio computation is nonzero
(indeed positive) whenever currentTick is strictly greater than tickLower; it is
zero exactly at currentTick = tickLower, and for that input calculateOptimalRatio
yields the failure value none, which models the non-finite (Infinity / NaN)
ratios the JS float division produces there, so no finite pair in the unit
interval summing to one is returned. -/
theorem calculateOptimalRatio_divisor :
    (∀ currentTick tickLower : ℤ, tickLower < currentTick →
      0 < sqrtPriceOfTick currentTick - sqrtPriceOfTick tickLower) ∧
    (∀ currentTick tickLower : ℤ,
      (sqrtPriceOfTick currentTick - sqrtPriceOfTick tickLower = 0 ↔
        currentTick = tickLower)) ∧
    (∀ tickLower tickUpper decimals0 decimals1 : ℤ, tickLower ≤ tickUpper →
      calculateOptimalRatio tickLower tickLower tickUpper decimals0 decimals1 = none) := by
  refine ⟨?_, ?_, ?_⟩
  · intro currentTick tickLower h
    exact sub_pos.mpr (sqrtPriceOfTick_lt h)
  · intro currentTick tickLower
    constructor
    · intro h
      exact sqrtPriceOfTick_inj (sub_eq_zero.mp h)
    · intro h
      rw [h, sub_self]
  · intro tickLower tickUpper decimals0 decimals1 h
    have h1 : ¬ (tickLower < tickLower) := lt_irrefl _
    have h2 : ¬ (tickUpper < tickLower) := not_lt.mpr h
    simp [calculateOptimalRatio, h1, h2]

/-- C10 (witness). The divisor theorem applied at currentTick = 1 against
tickLower = 0, and the degenerate input currentTick = tickLower = 0 with
tickUpper = 60. -/
theorem calculateOptimalRatio_divisor_witness :
    0 < sqrtPriceOfTick 1 - sqrtPriceOfTick 0 ∧
    calculateOptimalRatio 0 0 60 9 6 = none :=
  ⟨calculateOptimalRatio_divisor.1 1 0 (by decide),
    calculateOptimalRatio_divisor.2.2 0 60 9 6 (by decide)⟩

/-- C3 (counterexample to the claim as stated). At currentTick = tickUpper = 0
with tickLower = -60 the in-range branch runs and returns exactly the boundary
pair (0, 1) even though currentTick > tickUpper is false, so (0, 1) is not
returned exactly when currentTick > tickUpper. At this input the float
computation agrees with the real model bit for bit, because every intermediate
value is exactly representable. -/
theorem calculateOptimalRatio_boundary_claim_false :
    calculateOptimalRatio 0 (-60) 0 6 6 = some ⟨0, 1, true, false⟩ ∧
    ¬ ((0 : ℤ) > (0 : ℤ)) := by
  constructor
  · have h1 : ¬ ((0 : ℤ) < (-60 : ℤ)) := by decide
    have h2 : ¬ ((0 : ℤ) < (0 : ℤ)) := by decide
    have h3 : ¬ ((0 : ℤ) = (-60 : ℤ)) := by decide
    have hsc : sqrtPriceOfTick 0 = 1 := by
      simp [sqrtPriceOfTick]
    simp only [calculateOptimalRatio, if_neg h1, if_neg h2, if_neg h3, hsc]
    norm_num
  · decide

/-- C3 (amended). For every valid range (tickLower at most tickUpper) the pair
(1, 0) is returned exactly when currentTick < tickLower, while the pair (0, 1)
is returned exactly when currentTick > tickUpper or when the position is in
range with tickLower < currentTick = tickUpper, where the in-range formula
degenerates to the boundary pair (distinguished from the out-of-range case by
the inRange flag); at currentTick = tickLower no ratio pair is returned at all
(the divisor vanishes). -/
theorem calculateOptimalRatio_boundary_pairs
    (currentTick tickLower tickUpper decimals0 decimals1 : ℤ)
    (hrange : tickLower ≤ tickUpper) :
    ((∃ res, calculateOptimalRatio currentTick tickLower tickUpper decimals0 decimals1 =
        some res ∧ res.token0Ratio = 1 ∧ res.token1Ratio = 0) ↔
      currentTick < tickLower) ∧
    ((∃ res, calculateOptimalRatio currentTick tickLower tickUpper decimals0 decimals1 =
        some res ∧ res.token0Ratio = 0 ∧ res.token1Ratio = 1) ↔
      (tickUpper < currentTick ∨ (tickLower < currentTick ∧ currentTick = tickUpper))) := by
  by_cases h1 : currentTick < tickLower
  · have hres : calculateOptimalRatio currentTick tickLower tickUpper decimals0 decimals1 =
        some ⟨1, 0, false, true⟩ := by
      simp [calculateOptimalRatio, h1]
    constructor
    · constructor
      · intro _
        exact h1
      · intro _
        exact ⟨⟨1, 0, false, true⟩, hres, rfl, rfl⟩
    · constructor
      · rintro ⟨res, hres2, hr0, hr1⟩
        rw [hres] at hres2
        obtain rfl : (⟨1, 0, false, true⟩ : RatioResult) = res := Option.some.inj hres2
        exact absurd hr0 one_ne_zero
      · rintro (hup | ⟨hlo, _⟩)
        · exact absurd (lt_trans hup (lt_of_lt_of_le h1 hrange)) (lt_irrefl _)
        · exact absurd (lt_trans hlo h1) (lt_irrefl _)
  · by_cases h2 : tickUpper < currentTick
    · have hres : calculateOptimalRatio currentTick tickLower tickUpper decimals0 decimals1 =
          some ⟨0, 1, false, false⟩ := by
        simp [calculateOptimalRatio, h1, h2]
      constructor
      · constructor
        · rintro ⟨res, hres2, hr0, hr1⟩
          rw [hres] at hres2
          obtain rfl : (⟨0, 1, false, false⟩ : RatioResult) = res := Option.some.inj hres2
          exact absurd hr0.symm one_ne_zero
        · intro hcl
          exact absurd hcl h1
      · constructor
        · intro _
          exact Or.inl h2
        · intro _
          exact ⟨⟨0, 1, false, false⟩, hres, rfl, rfl⟩
    · by_cases h3 : currentTick = tickLower
      · have hres : calculateOptimalRatio currentTick tickLower tickUpper decimals0 decimals1 =
            none := by
          rw [calculateOptimalRatio, if_neg h1, if_neg h2, if_pos h3]
        constructor
        · constructor
          · rintro ⟨res, hres2, _, _⟩
            rw [hres] at hres2
            exact Option.noConfusion hres2
          · intro hcl
            exact absurd hcl h1
        · constructor
          · rintro ⟨res, hres2, _, _⟩
            rw [hres] at hres2
            exact Option.noConfusion hres2
          · rintro (hup | ⟨hlo, _⟩)
            · exact absurd hup h2
            · rw [h3] at hlo
              exact absurd hlo (lt_irrefl _)
      · have hlt : tickLower < currentTick := lt_of_le_of_ne (not_lt.mp h1) (Ne.symm h3)
        have hle : currentTick ≤ tickUpper := not_lt.mp h2
        have hsc : 0 < sqrtPriceOfTick currentTick := sqrtPriceOfTick_pos currentTick
        have hden : 0 < sqrtPriceOfTick currentTick - sqrtPriceOfTick tickLower :=
          sub_pos.mpr (sqrtPriceOfTick_lt hlt)
        have hnum : 0 ≤ 1 / sqrtPriceOfTick currentTick - 1 / sqrtPriceOfTick tickUpper := by
          have := one_div_le_one_div_of_le hsc (sqrtPriceOfTick_le hle)
          linarith
        have hadj : (0 : ℝ) < (10 : ℝ) ^ ((decimals1 : ℝ) - (decimals0 : ℝ)) :=
          Real.rpow_pos_of_pos (by norm_num) _
        have hprice : 0 < getPriceFromTickAdjusted currentTick decimals0 decimals1 :=
          getPriceFromTickAdjusted_pos currentTick decimals0 decimals1
        set raw : ℝ := (1 / sqrtPriceOfTick currentTick - 1 / sqrtPriceOfTick tickUpper) /
          (sqrtPriceOfTick currentTick - sqrtPriceOfTick tickLower) with hraw
        set v0 : ℝ := raw * (10 : ℝ) ^ ((decimals1 : ℝ) - (decimals0 : ℝ)) *
          getPriceFromTickAdjusted currentTick decimals0 decimals1 with hv0
        have hv0nonneg : 0 ≤ v0 := by
          rw [hv0]
          exact mul_nonneg (mul_nonneg (div_nonneg hnum hden.le) hadj.le) hprice.le
        have htot : (0 : ℝ) < v0 + 1 := by linarith
        have hres : calculateOptimalRatio currentTick tickLower tickUpper decimals0 decimals1 =
            some ⟨v0 / (v0 + 1), 1 / (v0 + 1), true, false⟩ := by
          rw [hv0, hraw]
          simp only [calculateOptimalRatio, if_neg h1, if_neg h2, if_neg h3,
            getPriceFromTickAdjusted]
        have hv0_zero_iff : v0 = 0 ↔ currentTick = tickUpper := by
          constructor
          · intro hz
            rw [hv0] at hz
            rcases mul_eq_zero.mp hz with hz1 | hz2
            · rcases mul_eq_zero.mp hz1 with hz3 | hz4
              · rw [hraw] at hz3
                rcases div_eq_zero_iff.mp hz3 with hz5 | hz6
                · have heq : 1 / sqrtPriceOfTick currentTick =
                      1 / sqrtPriceOfTick tickUpper := by linarith
                  rw [one_div, one_div, inv_inj] at heq
                  exact sqrtPriceOfTick_inj heq
                · exact absurd hz6 hden.ne'
              · exact absurd hz4 hadj.ne'
            · exact absurd hz2 hprice.ne'
          · intro hequ
            rw [hv0, hraw, hequ, sub_self, zero_div, zero_mul, zero_mul]
        constructor
        · constructor
          · rintro ⟨res, hres2, hr0, hr1⟩
            rw [hres] at hres2
            obtain rfl : (⟨v0 / (v0 + 1), 1 / (v0 + 1), true, false⟩ : RatioResult) = res :=
              Option.some.inj hres2
            have : (1 : ℝ) / (v0 + 1) ≠ 0 := by positivity
            exact absurd hr1 this
          · intro hcl
            exact absurd hcl h1
        · constructor
          · rintro ⟨res, hres2, hr0, hr1⟩
            rw [hres] at hres2
            obtain rfl : (⟨v0 / (v0 + 1), 1 / (v0 + 1), true, false⟩ : RatioResult) = res :=
              Option.some.inj hres2
            have hz : v0 = 0 := by
              rcases div_eq_zero_iff.mp hr0 with hz | hz
              · exact hz
              · exact absurd hz htot.ne'
            exact Or.inr ⟨hlt, hv0_zero_iff.mp hz⟩
          · rintro (hup | ⟨_, hequ⟩)
            · exact absurd hup h2
            · have hz : v0 = 0 := hv0_zero_iff.mpr hequ
              refine ⟨⟨v0 / (v0 + 1), 1 / (v0 + 1), true, false⟩, hres, ?_, ?_⟩
              · rw [hz]
                norm_num
              · rw [hz]
                norm_num

/-- C3 (witness). The boundary-pair characterization applied at
currentTick = -200 below the range (-100, 100): the pair (1, 0) is returned. -/
theorem calculateOptimalRatio_boundary_pairs_witness :
    ∃ res, calculateOptimalRatio (-200) (-100) 100 6 6 = some res ∧
      res.token0Ratio = 1 ∧ res.token1Ratio = 0 :=
  (calculateOptimalRatio_boundary_pairs (-200) (-100) 100 6 6 (by decide)).1.mpr (by decide)

/-! ## Theorems about the single-flight discipline -/

/-- Helper: when every rebalance in a cycle succeeds and no descriptor exists at
entry, every descriptor is created with none existing, and none survives. -/
theorem checkAndRebalance_all_success (candidates : List (ℕ × Bool)) :
    ∀ st : BotState, st.pendingRebalance = none → (∀ c ∈ candidates, c.2 = true) →
      ((checkAndRebalance st candidates).1.pendingRebalance = none ∧
        ∀ tokenId b, CycleEvent.descriptorCreated tokenId b ∈
          (checkAndRebalance st candidates).2 → b = false) := by
  induction candidates with
  | nil =>
    intro st hnone _
    refine ⟨by simpa [checkAndRebalance] using hnone, ?_⟩
    intro tokenId b hb
    simp [checkAndRebalance] at hb
  | cons head rest ih =>
    obtain ⟨tokenId0, succeeds0⟩ := head
    intro st hnone hall
    have hs : succeeds0 = true := hall _ (List.mem_cons_self _ _)
    subst hs
    have hrb : rebalanceRun st tokenId0 true =
        ({ st with pendingRebalance := none },
          [CycleEvent.descriptorCreated tokenId0 false,
            CycleEvent.descriptorCleared tokenId0]) := by
      simp [rebalanceRun, hnone]
    have hstep : checkAndRebalance st ((tokenId0, true) :: rest) =
        ((checkAndRebalance { st with pendingRebalance := none } rest).1,
          [CycleEvent.descriptorCreated tokenId0 false,
            CycleEvent.descriptorCleared tokenId0] ++
            (checkAndRebalance { st with pendingRebalance := none } rest).2) := by
      simp [checkAndRebalance, hrb]
    have hrest := ih { st with pendingRebalance := none } rfl
      (fun c hc => hall c (List.mem_cons_of_mem _ hc))
    rw [hstep]
    refine ⟨hrest.1, ?_⟩
    intro tokenId b hb
    simp only [List.mem_append, List.mem_cons, List.not_mem_nil, or_false,
      CycleEvent.descriptorCreated.injEq, reduceCtorEq] at hb
    rcases hb with ⟨_, hbf⟩ | h
    · exact hbf
    · exact hrest.2 tokenId b h

/-- C5 (amended). A trigger that overlaps a running cycle observes the skipping
outcome and changes nothing, so at most one check cycle (and hence at most one
rebalance) runs at a time; and as long as every rebalance of a cycle succeeds,
every descriptor is created with no previous descriptor in existence. The
original unconditional clause is false: after a failed rebalance the descriptor
survives and the next rebalance overwrites it (see the counterexample). -/
theorem runCheckCycle_single_flight :
    (∀ (st : BotState) (candidates : List (ℕ × Bool)), st.isCheckInProgress = true →
      runCheckCycle st candidates = (st, [CycleEvent.skipped])) ∧
    (∀ (st : BotState) (candidates : List (ℕ × Bool)), st.pendingRebalance = none →
      (∀ c ∈ candidates, c.2 = true) →
      ∀ tokenId b, CycleEvent.descriptorCreated tokenId b ∈
        (runCheckCycle st candidates).2 → b = false) := by
  constructor
  · intro st candidates hlatch
    simp [runCheckCycle, hlatch]
  · intro st candidates hnone hall tokenId b hb
    by_cases hlatch : st.isCheckInProgress
    · simp only [runCheckCycle, if_pos hlatch, List.mem_singleton] at hb
      exact absurd hb (by simp)
    · simp only [runCheckCycle, if_neg hlatch] at hb
      exact (checkAndRebalance_all_success candidates
        { st with isCheckInProgress := true } hnone hall).2 tokenId b hb

/-- C5 (counterexample to the claim as stated). Starting from an idle state, a
cycle with two rebalance candidates where the first rebalance fails leaves the
failed descriptor in place (pendingRebalance = some 1 after the first
candidate), and the second rebalance then creates its descriptor while the first
still exists: the trace records descriptorCreated 2 true. -/
theorem runCheckCycle_overwrites_failed_descriptor :
    (runCheckCycle ⟨false, none⟩ [(1, false)]).1.pendingRebalance = some 1 ∧
    CycleEvent.descriptorCreated 2 true ∈
      (runCheckCycle ⟨false, none⟩ [(1, false), (2, true)]).2 := by
  decide

/-- C5 (witness). The single-flight theorem applied at a state whose latch is
set: the overlapping trigger is skipped. -/
theorem runCheckCycle_single_flight_witness :
    runCheckCycle ⟨true, none⟩ [(3, true)] = (⟨true, none⟩, [CycleEvent.skipped]) :=
  runCheckCycle_single_flight.1 ⟨true, none⟩ [(3, true)] rfl

/-! ## Theorems about the swap retry policy -/

/-- C6 (amended). Only the Kyber aggregator variant retries the retryable route
error kinds (CallFailed, InsufficientReturn, TransferFromFailed), and it does so
at most once more with a fresh quote (the second attempt oracle); on a
non-retryable first failure the second attempt is never consulted. The direct
Universal Router variant does not retry route errors at all. In both variants no
error is ever raised out of swapTokens: every failure is converted by the outer
catch into a null result (which the caller then treats as a failed swap). -/
theorem swapTokens_retry_behavior :
    (∀ (amountIn : ℕ) (e : SwapError) (receipt : ℕ),
      amountIn ≠ 0 → isRetryableRouteError e = true →
      swapTokensKyber amountIn (Except.error e) (Except.ok receipt) =
        Except.ok (some receipt)) ∧
    (∀ (amountIn : ℕ) (e : SwapError) (attempt2a attempt2b : Except SwapError ℕ),
      isRetryableRouteError e = false →
      swapTokensKyber amountIn (Except.error e) attempt2a =
        swapTokensKyber amountIn (Except.error e) attempt2b) ∧
    (∀ (amountIn : ℕ) (attempt1 attempt2 : Except SwapError ℕ),
      ∃ v, swapTokensKyber amountIn attempt1 attempt2 = Except.ok v) ∧
    (∀ (amountIn : ℕ) (send1 send2 : Except SwapError ℕ),
      ∃ v, swapTokensDirect amountIn send1 send2 = Except.ok v) ∧
    (∀ (amountIn : ℕ) (e : SwapError) (send2 : Except SwapError ℕ),
      amountIn ≠ 0 → e ≠ SwapError.nonceExpired →
      swapTokensDirect amountIn (Except.error e) send2 = Except.ok none) := by
  refine ⟨?_, ?_, ?_, ?_, ?_⟩
  · intro amountIn e receipt hne hre
    simp [swapTokensKyber, hne, hre]
  · intro amountIn e attempt2a attempt2b hre
    by_cases hz : amountIn = 0
    · simp [swapTokensKyber, hz]
    · simp [swapTokensKyber, hz, hre]
  · intro amountIn attempt1 attempt2
    by_cases hz : amountIn = 0
    · exact ⟨none, by simp [swapTokensKyber, hz]⟩
    · cases attempt1 with
      | ok receipt => exact ⟨some receipt, by simp [swapTokensKyber, hz]⟩
      | error e =>
        by_cases hre : isRetryableRouteError e
        · cases attempt2 with
          | ok receipt => exact ⟨some receipt, by simp [swapTokensKyber, hz, hre]⟩
          | error e2 => exact ⟨none, by simp [swapTokensKyber, hz, hre]⟩
        · exact ⟨none, by simp [swapTokensKyber, hz, hre]⟩
  · intro amountIn send1 send2
    by_cases hz : amountIn = 0
    · exact ⟨none, by simp [swapTokensDirect, hz]⟩
    · cases send1 with
      | ok receipt => exact ⟨some receipt, by simp [swapTokensDirect, hz]⟩
      | error e =>
        by_cases hne : e = SwapError.nonceExpired
        · cases send2 with
          | ok receipt => exact ⟨some receipt, by simp [swapTokensDirect, hz, hne]⟩
          | error e2 => exact ⟨none, by simp [swapTokensDirect, hz, hne]⟩
        · exact ⟨none, by simp [swapTokensDirect, hz, hne]⟩
  · intro amountIn e send2 hz hne
    simp [swapTokensDirect, hz, hne]

/-- C6 (counterexample to the claim as stated). In the direct Universal Router
variant a first failure of the retryable kind CallFailed is not retried even
though a second send would succeed: the result is a null return. And in the
Kyber variant a non-retryable failure kind is not raised: it is converted into a
null return by the outer catch. -/
theorem swapTokens_retry_claim_false :
    swapTokensDirect 5 (Except.error SwapError.callFailed) (Except.ok 7) = Except.ok none ∧
    swapTokensKyber 5 (Except.error SwapError.untrustedRouter) (Except.ok 7) =
      Except.ok none := by
  constructor <;> rfl

/-- C6 (witness). The retry theorem applied concretely: the Kyber variant
retries a CallFailed first attempt and returns the second attempt receipt, and
the direct variant returns null on a non-nonce error. -/
theorem swapTokens_retry_behavior_witness :
    swapTokensKyber 5 (Except.error SwapError.callFailed) (Except.ok 9) =
      Except.ok (some 9) ∧
    swapTokensDirect 5 (Except.error SwapError.other) (Except.ok 9) = Except.ok none :=
  ⟨swapTokens_retry_behavior.1 5 SwapError.callFailed 9 (by decide) (by decide),
    swapTokens_retry_behavior.2.2.2.2 5 SwapError.other (Except.ok 9) (by decide) (by decide)⟩

/-! ## Theorems about the nonce-expired retry -/

/-- C7 (confirmed). When the first submission fails with the nonce-expired kind,
the signer is reset and re-derives its nonce from the chain view (the retry
submission carries exactly the chain nonce), and exactly one retry happens; a
successful or otherwise-failed first submission triggers no retry, other error
kinds propagate, never more than two submissions occur, and in every case the
state-machine stage was advanced exactly once for the operation. -/
theorem submitSwap_nonce_retry (signer : NonceState) (chain1 chain2 : ℕ) :
    (∀ outcome2 : Except SwapError ℕ,
      (submitSwapWithNonceRetry signer chain1 chain2
          (Except.error SwapError.nonceExpired) outcome2).nonces =
        [(assignNonce signer chain1).1, chain2] ∧
      (submitSwapWithNonceRetry signer chain1 chain2
          (Except.error SwapError.nonceExpired) outcome2).result = outcome2) ∧
    (∀ (receipt : ℕ) (outcome2 : Except SwapError ℕ),
      (submitSwapWithNonceRetry signer chain1 chain2
          (Except.ok receipt) outcome2).nonces.length = 1 ∧
      (submitSwapWithNonceRetry signer chain1 chain2
          (Except.ok receipt) outcome2).result = Except.ok receipt) ∧
    (∀ (e : SwapError) (outcome2 : Except SwapError ℕ), e ≠ SwapError.nonceExpired →
      (submitSwapWithNonceRetry signer chain1 chain2
          (Except.error e) outcome2).nonces.length = 1 ∧
      (submitSwapWithNonceRetry signer chain1 chain2
          (Except.error e) outcome2).result = Except.error e) ∧
    (∀ outcome1 outcome2 : Except SwapError ℕ,
      (submitSwapWithNonceRetry signer chain1 chain2 outcome1 outcome2).nonces.length ≤ 2 ∧
      (submitSwapWithNonceRetry signer chain1 chain2 outcome1 outcome2).stageWrites = 1) := by
  refine ⟨?_, ?_, ?_, ?_⟩
  · intro outcome2
    simp [submitSwapWithNonceRetry, assignNonce, resetNonce]
  · intro receipt outcome2
    simp [submitSwapWithNonceRetry]
  · intro e outcome2 hne
    simp [submitSwapWithNonceRetry, hne]
  · intro outcome1 outcome2
    cases outcome1 with
    | ok receipt => simp [submitSwapWithNonceRetry]
    | error e =>
      by_cases hne : e = SwapError.nonceExpired
      · simp [submitSwapWithNonceRetry, hne]
      · simp [submitSwapWithNonceRetry, hne]

/-- C7 (witness). The nonce-retry theorem applied to a fresh signer with chain
view 10 at the first submission and 11 at the retry: the retry carries nonce 11
and a non-nonce error kind propagates after a single submission. -/
theorem submitSwap_nonce_retry_witness :
    (submitSwapWithNonceRetry ⟨none, 0⟩ 10 11
        (Except.error SwapError.nonceExpired) (Except.ok 3)).nonces = [10, 11] ∧
    (submitSwapWithNonceRetry ⟨none, 0⟩ 10 11
        (Except.error SwapError.callFailed) (Except.ok 3)).result =
      Except.error SwapError.callFailed :=
  ⟨((submitSwap_nonce_retry ⟨none, 0⟩ 10 11).1 (Except.ok 3)).1,
    ((submitSwap_nonce_retry ⟨none, 0⟩ 10 11).2.2.1 SwapError.callFailed (Except.ok 3)
      (by decide)).2⟩

/-! ## Theorems about the monitor tick fallback -/

/-- C9 (confirmed). When both the slot0 read and the fallback tick call fail for
a position whose pool address is known, checkAllPositions does not skip the
position: it classifies it against currentTick = 0, so its in-range status and
percentOutOfRange are those of checkPositionStatus evaluated at tick 0. -/
theorem checkAllPositions_tick_fallback
    (tokenId : ℕ) (tickLower tickUpper : ℤ) (liquidity : ℕ) (poolAddress : ℕ)
    (e1 e2 : ℕ) :
    currentTickOf (Except.error e1) (Except.error e2) = 0 ∧
    checkOnePosition ⟨tokenId, tickLower, tickUpper, liquidity, some poolAddress⟩
        ⟨Except.error e1, Except.error e2⟩ =
      some ⟨tokenId, poolAddress, 0, checkPositionStatus tickLower tickUpper 0⟩ ∧
    checkAllPositions [(⟨tokenId, tickLower, tickUpper, liquidity, some poolAddress⟩,
        ⟨Except.error e1, Except.error e2⟩)] =
      [⟨tokenId, poolAddress, 0, checkPositionStatus tickLower tickUpper 0⟩] := by
  refine ⟨rfl, rfl, rfl⟩

end LpBot
